import Mathlib

/-!
Verification of the gastown merge-queue engine against its design document.

The development shallow-embeds, in order:
* the `mq list` display logic of the CLI (`runMQList`, `cmd/mq.go`);
* the source-control adapter registry and the `SourceControlAdapter`
  interface contract (`pkg/adapter/adapter.go`);
* the Refinery Manager lifecycle operations (retry, reject), the
  status-derivation function, priority selection and the claim discipline of
  the Merge Queue Processor.  These live in `internal/refinery`, whose source
  is not part of the analysed tree; they are modelled from the design
  document and marked as such.
-/

namespace Gastown

/-! ## Beads issues as seen by the CLI -/

/-- Merge-request metadata parsed out of a beads issue by
`beads.ParseMRFields`.  `ParseMRFields` can return `nil`; the CLI treats that
case by substituting empty strings. -/
structure MRFields where
  branch : String
  worker : String
  target : String
  deriving DecidableEq, Repr

/-- A beads issue record, restricted to the fields the `mq` commands read:
`ID`, `Status`, `Priority`, `BlockedBy`, `BlockedByCount`, `CreatedAt`,
`Type`, the stored error detail, and the parse result of
`beads.ParseMRFields` (`none` models a `nil` return). -/
structure Issue where
  id : String
  status : String
  priority : Int
  blockedBy : List String
  blockedByCount : Int
  createdAt : String
  type : String
  error : String
  fields : Option MRFields
  deriving DecidableEq, Repr

/-- The display-status derivation of `runMQList` (`cmd/mq.go`): a closed or
in-progress raw status is passed through; an open issue is shown as
`blocked` when its `BlockedBy` list is non-empty or its `BlockedByCount` is
positive, and as `ready` otherwise.  The stored error detail is not
consulted. -/
def displayStatus (issue : Issue) : String :=
  if issue.status = "open" then
    if issue.blockedBy.length > 0 ∨ issue.blockedByCount > 0 then "blocked"
    else "ready"
  else issue.status

/-- Case-insensitive string equality, modelling `strings.EqualFold` as used
by the worker filter of `runMQList`. -/
def eqFold (a b : String) : Bool :=
  a.toLower == b.toLower

/-- Worker name of an issue as read by `runMQList`: the parsed field when
`ParseMRFields` succeeded, the empty string otherwise. -/
def issueWorker (issue : Issue) : String :=
  match issue.fields with
  | some f => f.worker
  | none => ""

/-- Target branch of an issue as read by `runMQList`: the parsed field when
`ParseMRFields` succeeded, the empty string otherwise. -/
def issueTarget (issue : Issue) : String :=
  match issue.fields with
  | some f => f.target
  | none => ""

/-- The secondary filter loop of `runMQList`: an issue is kept unless the
worker flag is set and differs case-insensitively from the issue's worker,
or the epic flag is set and the issue's target is not
`integration/<epic>`. -/
def passesFilters (workerFlag epicFlag : String) (issue : Issue) : Bool :=
  (workerFlag == "" || eqFold (issueWorker issue) workerFlag) &&
  (epicFlag == "" || issueTarget issue == "integration/" ++ epicFlag)

/-- The `--ready` branch of `runMQList`: the store's ready query result is
filtered to merge-request-typed issues, then the worker and epic filters are
applied.  No further status check is performed. -/
def mqListReadyResult (allReady : List Issue) (workerFlag epicFlag : String) :
    List Issue :=
  (allReady.filter (fun issue => issue.type == "merge-request")).filter
    (passesFilters workerFlag epicFlag)

/-! ## The Refinery Manager's data model, modelled from the design document -/

/-- Raw persisted status of a merge request. -/
inductive MRStatus where
  | mrOpen
  | mrInProgress
  | mrClosed
  deriving DecidableEq, Repr, BEq

/-- Derived (never persisted) status of a merge request. -/
inductive Derived where
  | ready
  | blocked
  | failed
  | inProgress
  | closed
  deriving DecidableEq, Repr, BEq

/-- Modelled from the spec: the Refinery Manager's `MergeRequest` record
(`internal/refinery`, absent from the analysed tree) — ID, Branch, Worker,
Target, Priority (0 = most urgent), RawStatus, Error (empty if none),
CreatedAt, BlockedBy, BlockedByCount (may exceed the list's length), the
linked issue ID, and the closure outcome and reason recorded at terminal
closure. -/
structure MR where
  id : String
  branch : String
  worker : String
  target : String
  priority : Int
  rawStatus : MRStatus
  error : String
  createdAt : Nat
  blockedBy : List String
  blockedByCount : Int
  issueId : String
  closedOutcome : String
  closeReason : String
  deriving DecidableEq, Repr, BEq

/-- Modelled from the spec: the Refinery Manager's pure status-derivation
function (absent from the analysed tree), with precedence
closed, then in_progress, then failed (open with a non-empty error), then
blocked (open, no error, explicit blockers or a positive blocker count),
then ready. -/
def derivedStatus (m : MR) : Derived :=
  match m.rawStatus with
  | .mrClosed => .closed
  | .mrInProgress => .inProgress
  | .mrOpen =>
    if m.error ≠ "" then .failed
    else if m.blockedBy ≠ [] ∨ m.blockedByCount > 0 then .blocked
    else .ready

/-! ## C1 and C6 -/

/-- A concrete open issue carrying a non-empty error and no blockers, as
rendered by `mq list`. -/
def failedDisplayIssue : Issue :=
  { id := "mr-1", status := "open", priority := 1, blockedBy := [],
    blockedByCount := 0, createdAt := "t", type := "merge-request",
    error := "network error", fields := none }

/-- The corresponding Refinery record: open, non-empty error, no
blockers. -/
def failedMR : MR :=
  { id := "mr-1", branch := "b", worker := "w", target := "main",
    priority := 1, rawStatus := .mrOpen, error := "network error",
    createdAt := 0, blockedBy := [], blockedByCount := 0, issueId := "",
    closedOutcome := "", closeReason := "" }

/-- C1: the spec's derivation classifies an open request with a non-empty
error as failed, but the display derivation of `runMQList` never consults
the error field: the same request is rendered `ready`, not `failed`.  The
code diverges from the documented precedence. -/
theorem display_status_ignores_error :
    displayStatus failedDisplayIssue = "ready" ∧
    derivedStatus failedMR = Derived.failed ∧
    displayStatus failedDisplayIssue ≠ "failed" := by
  refine ⟨rfl, rfl, ?_⟩
  decide

/-- C6: for every open issue, a positive `BlockedByCount` alone classifies
it as blocked in the display derivation, even with an empty `BlockedBy`
list and regardless of the error field; likewise the spec-level derivation
classifies an open, error-free request with a positive count as blocked. -/
theorem blocked_count_sufficient :
    (∀ issue : Issue, issue.status = "open" → issue.error = "" →
      issue.blockedByCount > 0 → displayStatus issue = "blocked") ∧
    (∀ m : MR, m.rawStatus = .mrOpen → m.error = "" →
      m.blockedByCount > 0 → derivedStatus m = Derived.blocked) := by
  constructor
  · intro issue hopen _ hcount
    unfold displayStatus
    rw [if_pos hopen, if_pos (Or.inr hcount)]
  · intro m hopen herr hcount
    have h1 : ¬ (m.error ≠ "") := by simp [herr]
    simp only [derivedStatus, hopen]
    rw [if_neg h1, if_pos (Or.inr hcount)]

/-- Witness for C6 at a concrete issue: open, error-free, empty `BlockedBy`
list, `BlockedByCount = 2`. -/
theorem blocked_count_sufficient_witness :
    displayStatus
      { id := "mr-2", status := "open", priority := 0, blockedBy := [],
        blockedByCount := 2, createdAt := "t", type := "merge-request",
        error := "", fields := none } = "blocked" :=
  blocked_count_sufficient.1 _ rfl rfl (by decide)

/-! ## C9: the ready listing -/

/-- An issue typed merge-request but with raw status `in_progress`; used to
show the ready listing applies no status re-check of its own. -/
def inProgressIssue : Issue :=
  { id := "mr-3", status := "in_progress", priority := 1, blockedBy := [],
    blockedByCount := 0, createdAt := "t", type := "merge-request",
    error := "", fields := none }

/-- C9 counterexample: the `--ready` branch of `runMQList` lists whatever
the store's ready query handed back (after the type and flag filters) — an
issue whose display status is `in_progress`, not `ready`, is still
included, so no independent re-check against the derived-status function
takes place. -/
theorem ready_listing_no_recheck :
    inProgressIssue ∈ mqListReadyResult [inProgressIssue] "" "" ∧
    displayStatus inProgressIssue = "in_progress" ∧
    displayStatus inProgressIssue ≠ "ready" := by
  decide

/-- C9 amended: every issue returned by the `--ready` listing is
merge-request-typed and drawn from the store's ready query result (then
narrowed by the worker and epic flags); no further status check is
performed. -/
theorem ready_listing_sound :
    ∀ (allReady : List Issue) (workerFlag epicFlag : String) (i : Issue),
      i ∈ mqListReadyResult allReady workerFlag epicFlag →
      i.type = "merge-request" ∧ i ∈ allReady := by
  intro allReady wf ef i hi
  unfold mqListReadyResult at hi
  have h1 := List.mem_filter.mp hi
  have h2 := List.mem_filter.mp h1.1
  refine ⟨?_, h2.1⟩
  simpa using h2.2

/-- An open, unblocked, error-free merge-request issue. -/
def readyIssue : Issue :=
  { id := "mr-4", status := "open", priority := 0, blockedBy := [],
    blockedByCount := 0, createdAt := "t", type := "merge-request",
    error := "", fields := none }

/-- Witness for the amended C9 at a one-element ready query result. -/
theorem ready_listing_sound_witness :
    readyIssue.type = "merge-request" ∧ readyIssue ∈ [readyIssue] :=
  ready_listing_sound [readyIssue] "" "" readyIssue (by decide)

/-! ## C2: the SourceControlAdapter contract -/

/-- Go types appearing in the adapter interface signatures. -/
inductive GoType where
  | goString
  | goRigConfig
  | goError
  deriving DecidableEq, Repr

/-- A Go method signature: name, parameter types, result types. -/
structure GoMethod where
  name : String
  params : List GoType
  results : List GoType
  deriving DecidableEq, Repr

/-- Shallow embedding of the method set of the `SourceControlAdapter`
interface (`pkg/adapter/adapter.go`), one entry per declared method with
its parameter and result types. -/
def sourceControlAdapterContract : List GoMethod :=
  [⟨"RigInit", [.goString, .goRigConfig], [.goError]⟩,
   ⟨"WorkerCreate", [.goString], [.goError]⟩,
   ⟨"WorkerActivate", [.goString], [.goError]⟩,
   ⟨"WorkerDeactivate", [.goString], [.goError]⟩,
   ⟨"BuildRoot", [], [.goString]⟩,
   ⟨"Submit", [.goString], [.goError]⟩,
   ⟨"Sync", [], [.goError]⟩]

/-- The sync and submit signatures as the spec words them: both keyed by
worker identity, each taking the worker as a parameter. -/
def specAdapterSyncSubmit : List GoMethod :=
  [⟨"Sync", [.goString], [.goError]⟩,
   ⟨"Submit", [.goString], [.goError]⟩]

/-- State of a `GitAdapter` (`pkg/adapter/git.go`): rig path, bare repo
path, and the currently configured worker path. -/
structure GitAdapterState where
  rigPath : String
  bareRepoPath : String
  workerPath : String
  deriving DecidableEq, Repr

/-- Embedding of `GitAdapter.Sync`: it consumes no worker argument.  It
fails with "no active worker" when no worker path is configured, and
otherwise runs fetch then pull in the stored worker path; the two oracles
abstract the outcomes of those git commands. -/
def gitSync (fetchErr pullErr : String → Option String)
    (g : GitAdapterState) : Except String Unit :=
  if g.workerPath = "" then .error "no active worker"
  else
    match fetchErr g.workerPath with
    | some e => .error ("fetching from origin: " ++ e)
    | none =>
      match pullErr g.workerPath with
      | some e => .error ("pulling with rebase: " ++ e)
      | none => .ok ()

/-- C2 counterexample: the declared contract's `Sync` method has an empty
parameter list, so the worker-keyed signature `Sync(worker) -> error`
claimed by the spec does not occur in the interface. -/
theorem sync_takes_no_worker_param :
    sourceControlAdapterContract.find? (fun m => m.name == "Sync") =
      some ⟨"Sync", [], [GoType.goError]⟩ ∧
    (⟨"Sync", [GoType.goString], [GoType.goError]⟩ : GoMethod) ∉
      sourceControlAdapterContract := by
  decide

/-- C2 amended: `Submit` is keyed by worker identity as the spec says, but
`Sync` is exposed as `Sync() -> error` with no worker parameter; the git
implementation of `Sync` operates on the adapter's previously configured
worker path, erring when none is set, whatever the git command outcomes. -/
theorem submit_keyed_sync_nullary :
    (⟨"Submit", [GoType.goString], [GoType.goError]⟩ : GoMethod) ∈
      sourceControlAdapterContract ∧
    (⟨"Submit", [GoType.goString], [GoType.goError]⟩ : GoMethod) ∈
      specAdapterSyncSubmit ∧
    (⟨"Sync", [], [GoType.goError]⟩ : GoMethod) ∈
      sourceControlAdapterContract ∧
    ∀ (fetchErr pullErr : String → Option String) (r b : String),
      gitSync fetchErr pullErr ⟨r, b, ""⟩ = .error "no active worker" := by
  refine ⟨by decide, by decide, by decide, ?_⟩
  intro fetchErr pullErr r b
  rfl

/-! ## C10: the adapter registry -/

/-- The package-level `adapters` map of `pkg/adapter/adapter.go`: an
association of names to factories, most recent registration first and
duplicate keys removed, matching Go map assignment semantics.  A factory
takes no arguments and yields an adapter instance. -/
def Registry (α : Type) : Type :=
  List (String × (Unit → α))

/-- `Register(name, factory)`: Go map assignment — any previous entry under
the name is replaced. -/
def Registry.register {α : Type} (r : Registry α) (name : String)
    (f : Unit → α) : Registry α :=
  (name, f) :: r.filter (fun p => p.1 != name)

/-- `Get(name)`: look up the factory and invoke it, or return the
"unknown adapter" error (with no adapter instance). -/
def Registry.get {α : Type} (r : Registry α) (name : String) :
    Except String α :=
  match r.find? (fun p => p.1 == name) with
  | some p => .ok (p.2 ())
  | none => .error ("unknown adapter: \"" ++ name ++ "\"")

/-- `IsRegistered(name)`: whether a factory is present under the name. -/
def Registry.isRegistered {α : Type} (r : Registry α) (name : String) :
    Bool :=
  (r.find? (fun p => p.1 == name)).isSome

/-- `List()`: the names of all registered adapters. -/
def Registry.names {α : Type} (r : Registry α) : List String :=
  r.map (fun p => p.1)

/-- C10: the registry is internally consistent — `Get` succeeds exactly
when `IsRegistered` holds, exactly when the name appears in the name
listing; after `Register(name, factory)`, `Get(name)` returns the result
of invoking that factory; and `Get` on an unregistered name returns the
"unknown adapter" error. -/
theorem registry_consistent :
    ∀ (α : Type) (r : Registry α) (name : String) (f : Unit → α),
      ((∃ a, Registry.get r name = Except.ok a) ↔
        Registry.isRegistered r name = true) ∧
      (Registry.isRegistered r name = true ↔ name ∈ Registry.names r) ∧
      (Registry.get (Registry.register r name f) name = Except.ok (f ())) ∧
      (Registry.isRegistered r name = false →
        Registry.get r name =
          Except.error ("unknown adapter: \"" ++ name ++ "\"")) := by
  intro α r name f
  refine ⟨?_, ?_, ?_, ?_⟩
  · cases h : r.find? (fun p => p.1 == name) with
    | none => simp [Registry.get, Registry.isRegistered, h]
    | some p => simp [Registry.get, Registry.isRegistered, h]
  · rw [Registry.isRegistered, List.find?_isSome, Registry.names]
    constructor
    · rintro ⟨p, hp, hpn⟩
      exact List.mem_map.mpr ⟨p, hp, by simpa using hpn⟩
    · rintro hn
      obtain ⟨p, hp, hpn⟩ := List.mem_map.mp hn
      exact ⟨p, hp, by simp [hpn]⟩
  · rw [Registry.register, Registry.get, List.find?_cons_of_pos _ (by simp)]
  · intro h
    rw [Registry.isRegistered] at h
    have hn : List.find? (fun p => p.1 == name) r = none :=
      Option.not_isSome_iff_eq_none.mp (by simp [h])
    rw [Registry.get, hn]

/-- Witness for C10: a fresh registry with `git` registered returns the
factory's instance from `Get`. -/
theorem registry_consistent_witness :
    Registry.get (Registry.register ([] : Registry Nat) "git" (fun _ => 7))
      "git" = Except.ok 7 :=
  (registry_consistent Nat [] "git" (fun _ => 7)).2.2.1

/-! ## Retry protocol, modelled from the spec -/

/-- Refinery Manager error kinds relevant to retry and reject. -/
inductive RefErr where
  | notFound
  | notFailed
  deriving DecidableEq, Repr

/-- Outcome of an adapter sync-then-submit attempt, abstracting the
pluggable backend. -/
inductive AdapterOutcome where
  | success
  | failure (msg : String)
  deriving DecidableEq, Repr

/-- Modelled from the spec: clearing a request's Error field, the state
change a successful retry performs. -/
def clearError (m : MR) : MR :=
  { m with error := "" }

/-- Modelled from the spec: the net effect of one merge attempt on the
claimed request — success closes it with outcome "merged"; an adapter
failure records the failure detail and returns it to open. -/
def attemptMR (o : AdapterOutcome) (m : MR) : MR :=
  match o with
  | .success => { m with rawStatus := .mrClosed, closedOutcome := "merged" }
  | .failure msg => { m with rawStatus := .mrOpen, error := msg }

/-- The id test a store lookup performs. -/
def idIs (key : String) (x : MR) : Bool :=
  x.id == key

/-- The branch test the reject resolution performs. -/
def branchIs (key : String) (x : MR) : Bool :=
  x.branch == key

/-- `idIs` decides id equality. -/
theorem idIs_eq {key : String} {x : MR} : idIs key x = true ↔ x.id = key := by
  simp [idIs]

/-- Modelled from the spec: `Retry(id, immediate)` of the Refinery Manager
(`internal/refinery`, absent from the analysed tree).  It fails with
NotFound when no request matches the id, fails with NotFailed unless the
derived status is exactly failed, and otherwise clears the matched
request's Error field; with `immediate` set it additionally performs the
merge attempt synchronously on the cleared request when it is now ready,
the adapter outcome being abstracted by `adapter`.  An error result leaves
the store untouched. -/
def Retry (store : List MR) (id : String) (immediate : Bool)
    (adapter : AdapterOutcome) : Except RefErr (List MR) :=
  match store.find? (idIs id) with
  | none => .error .notFound
  | some m =>
    if derivedStatus m ≠ .failed then .error .notFailed
    else
      let cleared := store.map (fun x => if idIs id x then clearError x else x)
      if immediate then
        .ok (cleared.map (fun x =>
          if idIs id x && derivedStatus x == Derived.ready then
            attemptMR adapter x
          else x))
      else .ok cleared

/-- The store visible after a `Retry` call: updated on success, untouched
on error. -/
def retryStore (store : List MR) (id : String) (immediate : Bool)
    (adapter : AdapterOutcome) : List MR :=
  match Retry store id immediate adapter with
  | .ok s => s
  | .error _ => store

/-! ### Helper lemmas -/

/-- A request of derived status failed is raw-open and carries a non-empty
error. -/
theorem failed_fields {m : MR} (h : derivedStatus m = .failed) :
    m.rawStatus = .mrOpen ∧ m.error ≠ "" := by
  cases hr : m.rawStatus with
  | mrClosed =>
    simp only [derivedStatus, hr] at h
    exact absurd h (by decide)
  | mrInProgress =>
    simp only [derivedStatus, hr] at h
    exact absurd h (by decide)
  | mrOpen =>
    simp only [derivedStatus, hr] at h
    by_cases he : m.error = ""
    · rw [if_neg (by simp [he])] at h
      by_cases hb : m.blockedBy ≠ [] ∨ m.blockedByCount > 0
      · rw [if_pos hb] at h
        exact absurd h (by decide)
      · rw [if_neg hb] at h
        exact absurd h (by decide)
    · exact ⟨rfl, he⟩

/-- Clearing the error of a failed request leaves it blocked or ready,
according to its remaining blockers. -/
theorem derived_clearError {m : MR} (h : derivedStatus m = .failed) :
    derivedStatus (clearError m) =
      if m.blockedBy ≠ [] ∨ m.blockedByCount > 0 then Derived.blocked
      else Derived.ready := by
  obtain ⟨hr, _⟩ := failed_fields h
  simp only [derivedStatus, clearError, hr]
  rw [if_neg (by simp)]

/-- `find?` by id commutes with mapping an id-preserving function over the
store. -/
theorem find?_map_id_pres {l : List MR} {key : String} {m : MR}
    (f : MR → MR) (hid : ∀ x, (f x).id = x.id)
    (hf : l.find? (idIs key) = some m) :
    (l.map f).find? (idIs key) = some (f m) := by
  induction l with
  | nil => simp at hf
  | cons a t ih =>
    by_cases pa : idIs key a = true
    · rw [List.find?_cons_of_pos _ pa] at hf
      injection hf with hf
      subst hf
      rw [List.map_cons, List.find?_cons_of_pos _
        (show idIs key (f a) = true by unfold idIs; rw [hid]; exact pa)]
    · rw [List.find?_cons_of_neg _ pa] at hf
      rw [List.map_cons, List.find?_cons_of_neg _
        (show ¬ idIs key (f a) = true by unfold idIs; rw [hid]; exact pa)]
      exact ih hf

/-- A request whose id differs from the updated key survives an
update-by-id map unchanged. -/
theorem mem_map_update_of_ne {l : List MR} {key : String}
    (f : MR → MR) (x : MR) (hx : x ∈ l) (hne : ¬ x.id = key) :
    x ∈ l.map (fun y => if idIs key y then f y else y) :=
  List.mem_map.mpr ⟨x, hx, by simp [idIs, hne]⟩

/-- Conversely, a request of a different id found after an update-by-id map
was already in the store. -/
theorem mem_of_mem_map_update_ne {l : List MR} {key : String}
    (f : MR → MR) (hid : ∀ y, (f y).id = y.id) (x : MR)
    (hx : x ∈ l.map (fun y => if idIs key y then f y else y))
    (hne : ¬ x.id = key) : x ∈ l := by
  obtain ⟨y, hy, hxy⟩ := List.mem_map.mp hx
  have hxy' : (if idIs key y then f y else y) = x := hxy
  by_cases py : idIs key y = true
  · rw [if_pos py] at hxy'
    have hxk : x.id = key := by rw [← hxy', hid]; exact idIs_eq.mp py
    exact absurd hxk hne
  · rw [if_neg py] at hxy'
    exact hxy' ▸ hy

/-- Under duplicate-free ids, the filter by the found id is exactly the
found request. -/
theorem filter_id_eq_single {l : List MR} {key : String} {m : MR}
    (hf : l.find? (idIs key) = some m)
    (hn : (l.map (fun x => x.id)).Nodup) :
    l.filter (idIs key) = [m] := by
  induction l with
  | nil => simp at hf
  | cons a t ih =>
    rw [List.map_cons, List.nodup_cons] at hn
    by_cases pa : idIs key a = true
    · rw [List.find?_cons_of_pos _ pa] at hf
      injection hf with hf
      subst hf
      rw [List.filter_cons_of_pos pa]
      have ht : t.filter (idIs key) = [] := by
        rw [List.filter_eq_nil_iff]
        intro x hx hxk
        exact hn.1 (List.mem_map.mpr
          ⟨x, hx, by rw [idIs_eq.mp hxk, ← idIs_eq.mp pa]⟩)
      rw [ht]
    · rw [List.find?_cons_of_neg _ pa] at hf
      rw [List.filter_cons_of_neg pa]
      exact ih hf hn.2

/-! ### C3 -/

/-- C3: `Retry` fails with NotFound when no request matches the id, and
with NotFailed whenever the matched request's derived status is anything
but failed; in either case the visible store is unchanged.  Both hold for
every value of the immediate flag and, `Retry` being a pure function of its
inputs, identically on every re-invocation. -/
theorem retry_rejects_non_failed :
    ∀ (store : List MR) (id : String) (immediate : Bool)
      (adapter : AdapterOutcome),
      (store.find? (idIs id) = none →
        Retry store id immediate adapter = .error .notFound ∧
        retryStore store id immediate adapter = store) ∧
      (∀ m, store.find? (idIs id) = some m →
        derivedStatus m ≠ .failed →
        Retry store id immediate adapter = .error .notFailed ∧
        retryStore store id immediate adapter = store) := by
  intro store id immediate adapter
  constructor
  · intro hnone
    have h : Retry store id immediate adapter = .error .notFound := by
      simp only [Retry, hnone]
    exact ⟨h, by simp only [retryStore, h]⟩
  · intro m hm hnf
    have h : Retry store id immediate adapter = .error .notFailed := by
      simp only [Retry, hm]
      exact if_pos hnf
    exact ⟨h, by simp only [retryStore, h]⟩

/-- A ready merge request used to exercise the NotFailed rejection. -/
def readyMR : MR :=
  { id := "mr-r", branch := "br", worker := "wr", target := "main",
    priority := 0, rawStatus := .mrOpen, error := "", createdAt := 5,
    blockedBy := [], blockedByCount := 0, issueId := "",
    closedOutcome := "", closeReason := "" }

/-- Witness for C3: a missing id yields NotFound, and retrying a ready
request yields NotFailed, each leaving the one-element store unchanged. -/
theorem retry_rejects_non_failed_witness :
    (Retry [readyMR] "absent" true .success = .error .notFound ∧
      retryStore [readyMR] "absent" true .success = [readyMR]) ∧
    (Retry [readyMR] "mr-r" false .success = .error .notFailed ∧
      retryStore [readyMR] "mr-r" false .success = [readyMR]) :=
  ⟨(retry_rejects_non_failed [readyMR] "absent" true .success).1 (by decide),
   (retry_rejects_non_failed [readyMR] "mr-r" false .success).2 readyMR
     (by decide) (by decide)⟩

/-! ### C4 -/

/-- What a successful non-immediate retry guarantees for the request found
under `id`: the call succeeds; the request reappears with its error
cleared; its new derived status is blocked or ready exactly according to
the remaining blockers and in particular not failed; every other request
is untouched in both directions; and, under duplicate-free ids, the
retried request is the only one bearing that id, so exactly one Error
field changes. -/
def RetryClearSpec (store : List MR) (id : String)
    (adapter : AdapterOutcome) (m : MR) : Prop :=
  ∃ store' m',
    Retry store id false adapter = .ok store' ∧
    store'.find? (idIs id) = some m' ∧
    m' = clearError m ∧
    m.error ≠ "" ∧
    m'.error = "" ∧
    (derivedStatus m' = Derived.blocked ∨ derivedStatus m' = Derived.ready) ∧
    (derivedStatus m' = Derived.blocked ↔
      (m.blockedBy ≠ [] ∨ m.blockedByCount > 0)) ∧
    derivedStatus m' ≠ Derived.failed ∧
    (∀ x ∈ store, ¬ x.id = id → x ∈ store') ∧
    (∀ x ∈ store', ¬ x.id = id → x ∈ store) ∧
    ((store.map (fun x => x.id)).Nodup → store.filter (idIs id) = [m])

/-- C4: retrying a request of derived status failed clears its Error field
and nothing else; the resulting derived status is ready or blocked per the
remaining BlockedBy/BlockedByCount, never failed, and exactly one request's
Error field changes. -/
theorem retry_failed_clears_error :
    ∀ (store : List MR) (id : String) (adapter : AdapterOutcome) (m : MR),
      store.find? (idIs id) = some m →
      derivedStatus m = .failed →
      RetryClearSpec store id adapter m := by
  intro store id adapter m hf hd
  obtain ⟨hr, he⟩ := failed_fields hd
  have hid : ∀ x : MR,
      ((fun y => if idIs id y then clearError y else y) x).id = x.id := by
    intro x
    show (if idIs id x then clearError x else x).id = x.id
    by_cases px : idIs id x = true
    · rw [if_pos px]; rfl
    · rw [if_neg px]
  have hmid : idIs id m = true := List.find?_some hf
  unfold RetryClearSpec
  refine ⟨store.map (fun x => if idIs id x then clearError x else x),
    clearError m, ?_, ?_, rfl, he, rfl, ?_, ?_, ?_, ?_, ?_, ?_⟩
  · simp only [Retry, hf]
    rw [if_neg (by simp [hd])]
    rfl
  · have h2 := find?_map_id_pres
      (fun y => if idIs id y then clearError y else y) hid hf
    have h3 : (fun y => if idIs id y then clearError y else y) m
        = clearError m := by
      show (if idIs id m then clearError m else m) = clearError m
      rw [if_pos hmid]
    rw [h3] at h2
    exact h2
  · rw [derived_clearError hd]
    by_cases hb : m.blockedBy ≠ [] ∨ m.blockedByCount > 0
    · exact Or.inl (if_pos hb)
    · exact Or.inr (if_neg hb)
  · rw [derived_clearError hd]
    by_cases hb : m.blockedBy ≠ [] ∨ m.blockedByCount > 0
    · simpa [if_pos hb] using hb
    · simp [if_neg hb, hb]
  · rw [derived_clearError hd]
    by_cases hb : m.blockedBy ≠ [] ∨ m.blockedByCount > 0
    · rw [if_pos hb]; decide
    · rw [if_neg hb]; decide
  · intro x hx hne
    exact mem_map_update_of_ne clearError x hx hne
  · intro x hx hne
    exact mem_of_mem_map_update_ne clearError (fun _ => rfl) x hx hne
  · intro hn
    exact filter_id_eq_single hf hn

/-- A failed merge request with one counted blocker. -/
def failedBlockedMR : MR :=
  { id := "mr-5", branch := "b5", worker := "w5", target := "main",
    priority := 2, rawStatus := .mrOpen, error := "push failed",
    createdAt := 10, blockedBy := [], blockedByCount := 1,
    issueId := "iss-5", closedOutcome := "", closeReason := "" }

/-- Witness for C4: retrying the failed request in a one-element store. -/
theorem retry_failed_clears_error_witness :
    RetryClearSpec [failedBlockedMR] "mr-5" .success failedBlockedMR :=
  retry_failed_clears_error [failedBlockedMR] "mr-5" .success failedBlockedMR
    (by decide) (by decide)

/-! ## Reject protocol, modelled from the spec -/

/-- A linked work item (the issue a merge request exists to land), with its
own status. -/
structure WorkItem where
  id : String
  status : String
  deriving DecidableEq, Repr

/-- Result record of a reject call: resolved branch, worker, and linked
issue id if any. -/
structure RejectResult where
  branch : String
  worker : String
  issueId : String
  deriving DecidableEq, Repr

/-- Queue state: the merge-request tickets and the linked work items. -/
structure QState where
  mrs : List MR
  issues : List WorkItem
  deriving DecidableEq, Repr

/-- Modelled from the spec: closing a request as rejected with the given
reason recorded. -/
def rejectClose (reason : String) (m : MR) : MR :=
  { m with
    rawStatus := .mrClosed
    closedOutcome := "rejected"
    closeReason := reason }

/-- Modelled from the spec: the target resolution of `RejectMR` — by ID
first, then by exact branch match among the merge-request tickets. -/
def resolveMR (mrs : List MR) (key : String) : Option MR :=
  match mrs.find? (idIs key) with
  | some m => some m
  | none => mrs.find? (branchIs key)

/-- Modelled from the spec: `RejectMR(idOrBranch, reason, notify)` of the
Refinery Manager (`internal/refinery`, absent from the analysed tree).  It
resolves by ID then by exact branch, fails with NotFound when neither
matches, and otherwise unconditionally closes the resolved request with
outcome "rejected" and the reason recorded, leaving the linked work items
untouched; notification is best-effort and alters no state. -/
def RejectMR (st : QState) (key reason : String) (notify : Bool) :
    Except RefErr (RejectResult × QState) :=
  match resolveMR st.mrs key with
  | none => .error .notFound
  | some m =>
    .ok (⟨m.branch, m.worker, m.issueId⟩,
      ⟨st.mrs.map (fun x => if idIs m.id x then rejectClose reason x else x),
        st.issues⟩)

/-- What a reject call guarantees for the resolved request `m`: the call
succeeds with the resolved branch, worker and linked issue id; the work
items are untouched; every stored copy of the request is closed with
outcome "rejected" and the reason recorded (hence derived status closed);
and every other request is untouched in both directions. -/
def RejectSpec (st : QState) (key reason : String) (notify : Bool)
    (m : MR) : Prop :=
  ∃ res st',
    RejectMR st key reason notify = .ok (res, st') ∧
    res = ⟨m.branch, m.worker, m.issueId⟩ ∧
    st'.issues = st.issues ∧
    (∀ x ∈ st'.mrs, x.id = m.id →
      x.rawStatus = .mrClosed ∧ x.closedOutcome = "rejected" ∧
      x.closeReason = reason ∧ derivedStatus x = Derived.closed) ∧
    (∀ x ∈ st'.mrs, ¬ x.id = m.id → x ∈ st.mrs) ∧
    (∀ x ∈ st.mrs, ¬ x.id = m.id → x ∈ st'.mrs)

/-- C5: `RejectMR` resolves by ID first, then by exact branch, failing with
NotFound only when neither matches; on a match with any non-closed derived
status it unconditionally closes the request with outcome "rejected" and
the reason recorded, regardless of blockers or claim state, and the linked
work items' own statuses are left unchanged. -/
theorem reject_closes_any_nonclosed :
    ∀ (st : QState) (key reason : String) (notify : Bool),
      (resolveMR st.mrs key = none →
        RejectMR st key reason notify = .error .notFound) ∧
      (∀ m, st.mrs.find? (idIs key) = some m →
        resolveMR st.mrs key = some m) ∧
      (st.mrs.find? (idIs key) = none →
        resolveMR st.mrs key = st.mrs.find? (branchIs key)) ∧
      (∀ m, resolveMR st.mrs key = some m → derivedStatus m ≠ .closed →
        RejectSpec st key reason notify m) := by
  intro st key reason notify
  refine ⟨?_, ?_, ?_, ?_⟩
  · intro hnone
    simp only [RejectMR, hnone]
  · intro m hm
    simp only [resolveMR, hm]
  · intro hnone
    simp only [resolveMR, hnone]
  · intro m hm _
    unfold RejectSpec
    refine ⟨⟨m.branch, m.worker, m.issueId⟩,
      ⟨st.mrs.map (fun x => if idIs m.id x then rejectClose reason x else x),
        st.issues⟩, ?_, rfl, rfl, ?_, ?_, ?_⟩
    · simp only [RejectMR, hm]
    · intro x hx hxid
      obtain ⟨y, hy, hxy⟩ := List.mem_map.mp hx
      have hxy' : (if idIs m.id y then rejectClose reason y else y) = x := hxy
      by_cases py : idIs m.id y = true
      · rw [if_pos py] at hxy'
        refine ⟨by rw [← hxy']; rfl, by rw [← hxy']; rfl,
          by rw [← hxy']; rfl, ?_⟩
        rw [← hxy']
        rfl
      · rw [if_neg py] at hxy'
        exact absurd (hxy' ▸ hxid) (by simpa [idIs_eq] using py)
    · intro x hx hne
      exact mem_of_mem_map_update_ne (rejectClose reason)
        (fun _ => rfl) x hx hne
    · intro x hx hne
      exact mem_map_update_of_ne (rejectClose reason) x hx hne

/-- A blocked, in-flight merge request resolvable by its branch, and its
linked open work item. -/
def toastMR : MR :=
  { id := "mr-6", branch := "polecat/Toast/work-2", worker := "Toast",
    target := "main", priority := 1, rawStatus := .mrOpen, error := "",
    createdAt := 7, blockedBy := ["mr-1"], blockedByCount := 1,
    issueId := "iss-6", closedOutcome := "", closeReason := "" }

/-- The queue state holding `toastMR` and its linked work item. -/
def toastState : QState :=
  { mrs := [toastMR],
    issues := [({ id := "iss-6", status := "open" } : WorkItem)] }

/-- Witness for C5: rejecting by branch match with reason "superseded"
closes the request and leaves the linked work item untouched. -/
theorem reject_closes_any_nonclosed_witness :
    RejectSpec toastState "polecat/Toast/work-2" "superseded" false
      toastMR :=
  (reject_closes_any_nonclosed toastState "polecat/Toast/work-2"
      "superseded" false).2.2.2 toastMR (by decide) (by decide)

/-! ## Priority selection, modelled from the spec -/

/-- Modelled from the spec: the selection order of the Merge Queue
Processor (absent from the analysed tree) — lower Priority number first,
ties broken by earlier CreatedAt. -/
def mrBefore (a b : MR) : Bool :=
  decide (a.priority < b.priority ∨
    (a.priority = b.priority ∧ a.createdAt < b.createdAt))

/-- `mrBefore` decides the lexicographic (priority, creation time) strict
order. -/
theorem mrBefore_iff {a b : MR} :
    mrBefore a b = true ↔
      (a.priority < b.priority ∨
        (a.priority = b.priority ∧ a.createdAt < b.createdAt)) := by
  simp [mrBefore]

/-- No request precedes itself in the selection order. -/
theorem mrBefore_irrefl (a : MR) : mrBefore a a = false := by
  rw [Bool.eq_false_iff]
  intro h
  rw [mrBefore_iff] at h
  omega

/-- The selection order is transitive. -/
theorem mrBefore_trans {a b c : MR} (h1 : mrBefore a b = true)
    (h2 : mrBefore b c = true) : mrBefore a c = true := by
  rw [mrBefore_iff] at h1 h2 ⊢
  omega

/-- Non-precedence is transitive as well. -/
theorem mrBefore_neg_trans {a b c : MR} (h1 : mrBefore a b = false)
    (h2 : mrBefore b c = false) : mrBefore a c = false := by
  rw [Bool.eq_false_iff] at h1 h2
  rw [Bool.eq_false_iff]
  intro h
  rw [mrBefore_iff] at h
  have n1 : ¬ (a.priority < b.priority ∨
      (a.priority = b.priority ∧ a.createdAt < b.createdAt)) :=
    fun hx => h1 (mrBefore_iff.mpr hx)
  have n2 : ¬ (b.priority < c.priority ∨
      (b.priority = c.priority ∧ b.createdAt < c.createdAt)) :=
    fun hx => h2 (mrBefore_iff.mpr hx)
  omega

/-- A selected minimum stays minimal against an element it beat. -/
theorem mrBefore_pos_neg {a b m : MR} (h1 : mrBefore a b = true)
    (h2 : mrBefore a m = false) : mrBefore b m = false := by
  rw [Bool.eq_false_iff] at h2 ⊢
  intro hbm
  exact h2 (mrBefore_trans h1 hbm)

/-- One step of the selection fold: keep the better of the accumulator and
the next candidate. -/
def selStep (acc : Option MR) (m : MR) : Option MR :=
  match acc with
  | none => some m
  | some b => if mrBefore m b then some m else some b

/-- Modelled from the spec: the derived-ready requests for a target. -/
def readyFor (target : String) (store : List MR) : List MR :=
  store.filter (fun m =>
    decide (m.target = target ∧ derivedStatus m = Derived.ready))

/-- Modelled from the spec: the processor's selection among derived-ready
requests sharing a target — the lowest Priority number, ties broken by
earliest CreatedAt. -/
def selectNext (target : String) (store : List MR) : Option MR :=
  (readyFor target store).foldl selStep none

/-- The selection fold started from a candidate yields a minimal element
among the candidate and the list. -/
theorem selStep_min :
    ∀ (l : List MR) (b : MR),
      ∃ m, l.foldl selStep (some b) = some m ∧
        (m = b ∨ m ∈ l) ∧ mrBefore b m = false ∧
        ∀ x ∈ l, mrBefore x m = false := by
  intro l
  induction l with
  | nil =>
    intro b
    exact ⟨b, rfl, Or.inl rfl, mrBefore_irrefl b, by simp⟩
  | cons a t ih =>
    intro b
    rw [List.foldl_cons]
    by_cases hab : mrBefore a b = true
    · have hstep : selStep (some b) a = some a := by
        rw [selStep, if_pos hab]
      rw [hstep]
      obtain ⟨m, hm, hmem, hba, hall⟩ := ih a
      refine ⟨m, hm, ?_, ?_, ?_⟩
      · rcases hmem with rfl | h
        · exact Or.inr (List.mem_cons_self m t)
        · exact Or.inr (List.mem_cons_of_mem a h)
      · exact mrBefore_pos_neg hab hba
      · intro x hx
        rcases List.mem_cons.mp hx with rfl | hxt
        · exact hba
        · exact hall x hxt
    · have hab' : mrBefore a b = false := Bool.eq_false_iff.mpr hab
      have hstep : selStep (some b) a = some b := by
        rw [selStep, if_neg hab]
      rw [hstep]
      obtain ⟨m, hm, hmem, hbm, hall⟩ := ih b
      refine ⟨m, hm, ?_, hbm, ?_⟩
      · rcases hmem with rfl | h
        · exact Or.inl rfl
        · exact Or.inr (List.mem_cons_of_mem a h)
      · intro x hx
        rcases List.mem_cons.mp hx with rfl | hxt
        · exact mrBefore_neg_trans hab' hbm
        · exact hall x hxt

/-- C7: whenever the processor's selection yields a request, that request
is a derived-ready request for the target from the store, and no other
derived-ready request for the same target precedes it in the (Priority,
CreatedAt) order — in particular a lower-priority-number request created
later is selected before a higher-priority-number one created earlier. -/
theorem selection_lowest_priority_earliest :
    ∀ (target : String) (store : List MR) (m : MR),
      selectNext target store = some m →
      (m ∈ store ∧ m.target = target ∧ derivedStatus m = Derived.ready) ∧
      ∀ x ∈ store, x.target = target → derivedStatus x = Derived.ready →
        mrBefore x m = false := by
  intro target store m hsel
  unfold selectNext at hsel
  cases hl : readyFor target store with
  | nil => rw [hl] at hsel; simp at hsel
  | cons a t =>
    rw [hl, List.foldl_cons] at hsel
    have hstep : selStep none a = some a := rfl
    rw [hstep] at hsel
    obtain ⟨m', hm', hmem, hba, hall⟩ := selStep_min t a
    rw [hm'] at hsel
    injection hsel with hsel
    subst hsel
    have hmemr : m' ∈ readyFor target store := by
      rw [hl]
      rcases hmem with rfl | h
      · exact List.mem_cons_self m' t
      · exact List.mem_cons_of_mem a h
    have hsplit := List.mem_filter.mp hmemr
    have hprops : m'.target = target ∧ derivedStatus m' = Derived.ready := by
      have := hsplit.2
      simp only [decide_eq_true_eq] at this
      exact this
    refine ⟨⟨hsplit.1, hprops.1, hprops.2⟩, ?_⟩
    intro x hx hxt hxr
    have hxready : x ∈ readyFor target store :=
      List.mem_filter.mpr ⟨hx, by simp [hxt, hxr]⟩
    rw [hl] at hxready
    rcases List.mem_cons.mp hxready with rfl | hxt'
    · exact hba
    · exact hall x hxt'

/-- A P1 request created earlier. -/
def demoP1 : MR :=
  { id := "mr-7", branch := "b7", worker := "w7", target := "main",
    priority := 1, rawStatus := .mrOpen, error := "", createdAt := 50,
    blockedBy := [], blockedByCount := 0, issueId := "",
    closedOutcome := "", closeReason := "" }

/-- A P0 request created later, for the same target. -/
def demoP0 : MR :=
  { id := "mr-8", branch := "b8", worker := "w8", target := "main",
    priority := 0, rawStatus := .mrOpen, error := "", createdAt := 100,
    blockedBy := [], blockedByCount := 0, issueId := "",
    closedOutcome := "", closeReason := "" }

/-- Witness for C7: with a P0 request created later and a P1 request
created earlier, both ready for the same target, the P0 request is
selected, and it is minimal. -/
theorem selection_lowest_priority_earliest_witness :
    selectNext "main" [demoP1, demoP0] = some demoP0 ∧
    (demoP0 ∈ [demoP1, demoP0] ∧ demoP0.target = "main" ∧
      derivedStatus demoP0 = Derived.ready) ∧
    ∀ x ∈ [demoP1, demoP0], x.target = "main" →
      derivedStatus x = Derived.ready → mrBefore x demoP0 = false := by
  have h := selection_lowest_priority_earliest "main" [demoP1, demoP0]
    demoP0 (by decide)
  exact ⟨by decide, h.1, h.2⟩

/-! ## Claim discipline, modelled from the spec -/

/-- Whether a request is currently claimed (in_progress) for the given
target. -/
def inProgAt (t : String) (x : MR) : Bool :=
  decide (x.rawStatus = MRStatus.mrInProgress ∧ x.target = t)

/-- `inProgAt` decides the claimed-for-target property. -/
theorem inProgAt_iff {t : String} {x : MR} :
    inProgAt t x = true ↔
      (x.rawStatus = MRStatus.mrInProgress ∧ x.target = t) := by
  simp [inProgAt]

/-- A request that is not raw-in_progress is claimed for no target. -/
theorem inProgAt_false_of_status {x : MR}
    (h : x.rawStatus ≠ MRStatus.mrInProgress) :
    ∀ t, inProgAt t x = false := by
  intro t
  rw [Bool.eq_false_iff]
  intro hx
  exact h (inProgAt_iff.mp hx).1

/-- Modelled from the spec: the claim-discipline invariant — at most one
in_progress request per distinct target. -/
def claimInv (store : List MR) : Prop :=
  ∀ t : String, store.countP (inProgAt t) ≤ 1

/-- Marking a request claimed (raw status in_progress). -/
def claimed (m : MR) : MR :=
  { m with rawStatus := .mrInProgress }

/-- Closing a request as merged after a successful attempt. -/
def mergedClose (m : MR) : MR :=
  { m with rawStatus := .mrClosed, closedOutcome := "merged" }

/-- Returning a request to open with the adapter failure recorded. -/
def failOpen (msg : String) (m : MR) : MR :=
  { m with rawStatus := .mrOpen, error := msg }

/-- Modelled from the spec: one step of the scheduling/lifecycle state
machine of the Merge Queue Processor (absent from the analysed tree).  A
claim requires the request to be derived-ready and no request of the same
target to be in_progress; an attempt finishes by closing as merged or by
reopening with the failure recorded; a reject closes any non-closed
request; a retry clears the error of a failed request; creation appends an
open request. -/
inductive Step : List MR → List MR → Prop where
  | claim (l₁ l₂ : List MR) (m : MR)
      (hready : derivedStatus m = Derived.ready)
      (hfree : ∀ x ∈ l₁ ++ m :: l₂, x.target = m.target →
        x.rawStatus ≠ MRStatus.mrInProgress) :
      Step (l₁ ++ m :: l₂) (l₁ ++ claimed m :: l₂)
  | finishOk (l₁ l₂ : List MR) (m : MR)
      (hip : m.rawStatus = MRStatus.mrInProgress) :
      Step (l₁ ++ m :: l₂) (l₁ ++ mergedClose m :: l₂)
  | finishFail (l₁ l₂ : List MR) (m : MR) (msg : String)
      (hip : m.rawStatus = MRStatus.mrInProgress) :
      Step (l₁ ++ m :: l₂) (l₁ ++ failOpen msg m :: l₂)
  | rejectStep (l₁ l₂ : List MR) (m : MR) (reason : String)
      (hnc : m.rawStatus ≠ MRStatus.mrClosed) :
      Step (l₁ ++ m :: l₂) (l₁ ++ rejectClose reason m :: l₂)
  | retryStep (l₁ l₂ : List MR) (m : MR)
      (hfailed : derivedStatus m = Derived.failed) :
      Step (l₁ ++ m :: l₂) (l₁ ++ clearError m :: l₂)
  | createStep (s : List MR) (m : MR)
      (hopen : m.rawStatus = MRStatus.mrOpen) :
      Step s (s ++ [m])

/-- Reachability: the reflexive-transitive closure of `Step`. -/
inductive Reaches : List MR → List MR → Prop where
  | refl (s : List MR) : Reaches s s
  | tail (s₁ s₂ s₃ : List MR) :
      Reaches s₁ s₂ → Step s₂ s₃ → Reaches s₁ s₃

/-- Counting over a store split around one element. -/
theorem countP_middle (p : MR → Bool) (l₁ l₂ : List MR) (m : MR) :
    (l₁ ++ m :: l₂).countP p =
      l₁.countP p + l₂.countP p + (if p m then 1 else 0) := by
  rw [List.countP_append, List.countP_cons]
  omega

/-- Replacing one request by one that is claimed for no more targets
preserves the claim invariant. -/
theorem claimInv_replace {l₁ l₂ : List MR} {m m' : MR}
    (h : ∀ t, inProgAt t m' = true → inProgAt t m = true)
    (hinv : claimInv (l₁ ++ m :: l₂)) : claimInv (l₁ ++ m' :: l₂) := by
  intro t
  have h1 := hinv t
  rw [countP_middle] at h1
  rw [countP_middle]
  by_cases hm' : inProgAt t m' = true
  · rw [if_pos hm']
    rw [if_pos (h t hm')] at h1
    omega
  · rw [if_neg hm']
    by_cases hm : inProgAt t m = true
    · rw [if_pos hm] at h1
      omega
    · rw [if_neg hm] at h1
      omega

/-- The claim step preserves the invariant: the claimed target had no
in_progress request before, and other targets are untouched. -/
theorem claimInv_claim {l₁ l₂ : List MR} {m : MR}
    (hfree : ∀ x ∈ l₁ ++ m :: l₂, x.target = m.target →
      x.rawStatus ≠ MRStatus.mrInProgress)
    (hinv : claimInv (l₁ ++ m :: l₂)) :
    claimInv (l₁ ++ claimed m :: l₂) := by
  intro t
  rw [countP_middle]
  by_cases ht : t = m.target
  · subst ht
    have hz : ∀ x ∈ l₁ ++ m :: l₂, ¬ inProgAt m.target x = true := by
      intro x hx hpx
      obtain ⟨hs, ht'⟩ := inProgAt_iff.mp hpx
      exact hfree x hx ht' hs
    have hz1 : l₁.countP (inProgAt m.target) = 0 := by
      rw [List.countP_eq_zero]
      intro x hx
      exact hz x (List.mem_append_left _ hx)
    have hz2 : l₂.countP (inProgAt m.target) = 0 := by
      rw [List.countP_eq_zero]
      intro x hx
      exact hz x (List.mem_append_right _ (List.mem_cons_of_mem m hx))
    have hcl : inProgAt m.target (claimed m) = true := by
      rw [inProgAt_iff]
      exact ⟨rfl, rfl⟩
    rw [hz1, hz2, if_pos hcl]
  · have hcl : inProgAt t (claimed m) = false := by
      rw [Bool.eq_false_iff]
      intro hx
      exact ht ((inProgAt_iff.mp hx).2).symm
    rw [if_neg (by simp [hcl])]
    have h1 := hinv t
    rw [countP_middle] at h1
    omega

/-- C8: the claim invariant is preserved along every reachable state — in
every state reachable from a state satisfying it (in particular from any
state with no in_progress request), at most one request per distinct
target is in_progress; the step relation itself allows claims of distinct
targets to coexist. -/
theorem claim_discipline :
    ∀ (s₀ s : List MR), claimInv s₀ → Reaches s₀ s → claimInv s := by
  intro s₀ s hinv hr
  induction hr with
  | refl => exact hinv
  | tail s₂ s₃ hr12 hstep ih =>
    cases hstep with
    | claim l₁ l₂ m hready hfree => exact claimInv_claim hfree ih
    | finishOk l₁ l₂ m hip =>
      refine claimInv_replace ?_ ih
      intro t hx
      have hfalse := inProgAt_false_of_status
        (x := mergedClose m) (by simp [mergedClose]) t
      exact absurd hx (Bool.eq_false_iff.mp hfalse)
    | finishFail l₁ l₂ m msg hip =>
      refine claimInv_replace ?_ ih
      intro t hx
      have hfalse := inProgAt_false_of_status
        (x := failOpen msg m) (by simp [failOpen]) t
      exact absurd hx (Bool.eq_false_iff.mp hfalse)
    | rejectStep l₁ l₂ m reason hnc =>
      refine claimInv_replace ?_ ih
      intro t hx
      have hfalse := inProgAt_false_of_status
        (x := rejectClose reason m) (by simp [rejectClose]) t
      exact absurd hx (Bool.eq_false_iff.mp hfalse)
    | retryStep l₁ l₂ m hfailed =>
      refine claimInv_replace ?_ ih
      intro t hx
      have hraw : (clearError m).rawStatus = MRStatus.mrOpen := by
        simp [clearError, (failed_fields hfailed).1]
      have hfalse := inProgAt_false_of_status
        (x := clearError m) (by simp [hraw]) t
      exact absurd hx (Bool.eq_false_iff.mp hfalse)
    | createStep s m hopen =>
      intro t
      rw [List.countP_append]
      have hm := inProgAt_false_of_status (x := m) (by simp [hopen]) t
      have hone : List.countP (inProgAt t) [m] = 0 := by
        simp [List.countP_cons, hm]
      rw [hone]
      have := ih t
      omega

/-- An open ready request targeting `main`. -/
def mrA : MR :=
  { id := "mr-a", branch := "ba", worker := "wa", target := "main",
    priority := 0, rawStatus := .mrOpen, error := "", createdAt := 1,
    blockedBy := [], blockedByCount := 0, issueId := "",
    closedOutcome := "", closeReason := "" }

/-- An open ready request targeting `dev`. -/
def mrB : MR :=
  { id := "mr-b", branch := "bb", worker := "wb", target := "dev",
    priority := 0, rawStatus := .mrOpen, error := "", createdAt := 2,
    blockedBy := [], blockedByCount := 0, issueId := "",
    closedOutcome := "", closeReason := "" }

/-- Witness for C8: starting from two unclaimed requests of distinct
targets, both can be claimed in sequence — the resulting state has both
in_progress concurrently, and by the theorem it still satisfies the
one-per-target invariant. -/
theorem claim_discipline_witness :
    claimInv [mrA, mrB] ∧
    Reaches [mrA, mrB] [claimed mrA, claimed mrB] ∧
    claimInv [claimed mrA, claimed mrB] ∧
    (claimed mrA).rawStatus = MRStatus.mrInProgress ∧
    (claimed mrB).rawStatus = MRStatus.mrInProgress ∧
    (claimed mrA).target ≠ (claimed mrB).target := by
  have hinv0 : claimInv [mrA, mrB] := by
    intro t
    have h1 := inProgAt_false_of_status (x := mrA) (by decide) t
    have h2 := inProgAt_false_of_status (x := mrB) (by decide) t
    simp [List.countP_cons, h1, h2]
  have hfree1 : ∀ x ∈ ([] : List MR) ++ mrA :: [mrB],
      x.target = mrA.target → x.rawStatus ≠ MRStatus.mrInProgress := by
    intro x hx
    simp at hx
    rcases hx with rfl | rfl
    · intro h2
      decide
    · intro h2
      decide
  have hfree2 : ∀ x ∈ [claimed mrA] ++ mrB :: ([] : List MR),
      x.target = mrB.target → x.rawStatus ≠ MRStatus.mrInProgress := by
    intro x hx
    simp at hx
    rcases hx with rfl | rfl
    · intro h2
      exact absurd h2 (by decide)
    · intro h2
      decide
  have step1 : Step [mrA, mrB] [claimed mrA, mrB] :=
    Step.claim [] [mrB] mrA (by decide) hfree1
  have step2 : Step [claimed mrA, mrB] [claimed mrA, claimed mrB] :=
    Step.claim [claimed mrA] [] mrB (by decide) hfree2
  have hreach : Reaches [mrA, mrB] [claimed mrA, claimed mrB] :=
    Reaches.tail _ _ _ (Reaches.tail _ _ _ (Reaches.refl _) step1) step2
  exact ⟨hinv0, hreach,
    claim_discipline [mrA, mrB] [claimed mrA, claimed mrB] hinv0 hreach,
    rfl, rfl, by decide⟩

end Gastown
